import Mathlib

/-!
Shallow embedding of `crates/ra_hir/src/nameres/raw.rs`: the raw-item
extraction stage (collector, raw item model, import source map, query layer).

Modelling conventions:
* Arena ids (`Module`, `ImportId`, `Def`, `Macro` in the source, all newtypes
  over a dense `RawId`) are `Nat` indices into the corresponding list; an
  arena is a `List` and `alloc` appends at the end, returning the old length.
* `ArenaMap<ImportId, AstPtr<ast::PathSegment>>` is a function
  `Nat → Option PathSeg`; `insert` updates one key, exactly the map semantics
  of `ArenaMap` (at most one value per key).
* Syntax-tree nodes carry the data the collector reads off them: `name()`,
  `has_semi()`, `item_list()`, `has_atom_attr(..)`, and the stable-index
  results `ast_id(..)` / `id_of_unchecked(..)` are fields of the node
  (the stable item index is an external pure function of the node, so a node
  is embedded together with its index values).
* `AstPtr<ast::PathSegment>` (a position pointer) is a `Nat`.
-/

/-- Canonical name value (`Name` in the source); `as_name` conversions are
identity here since nodes store names already converted. -/
abbrev Name := String

/-- Position pointer to a path segment (`AstPtr<ast::PathSegment>`). -/
abbrev PathSeg := Nat

/-- An import/macro path (`Path` in the source), kept abstract as its
segments; `Path::from_name_ref` builds a single-segment path. -/
abbrev RawPath := List String

/-- Source `Path::from_name_ref(name_ref)`: a path consisting of that single name. -/
def RawPath.from_name_ref (n : Name) : RawPath := [n]

/-- One expanded leaf of a use item, as handed to the callback of
`Path::expand_use_item`: `(path, segment option, alias' option)`.

Modelled from the spec: `Path::expand_use_item` itself is outside this file's
source; per the spec it "invokes the callback once per expanded leaf with
(path, originating position or none for wildcard, optional alias')", so a use
item is embedded as the list of its expanded leaves, in expansion order. -/
structure UseLeaf where
  path : RawPath
  segment : Option PathSeg
  alias' : Option Name
deriving Repr, DecidableEq

/-- Source `DefKind` in the source. -/
inductive DefKind where
  | function
  | structKind
  | enum
  | const
  | staticKind
  | traitKind
  | typeAlias
deriving Repr, DecidableEq

/-- Source `ImportData` in the source. -/
structure ImportData where
  path : RawPath
  alias' : Option Name
  is_glob : Bool
  is_prelude : Bool
  is_extern_crate : Bool
deriving Repr, DecidableEq

/-- Default `ImportData`, used only as the `getD` fallback. -/
def dImport : ImportData :=
  { path := [], alias' := none, is_glob := false, is_prelude := false,
    is_extern_crate := false }

/-- Default `UseLeaf`, used only as the `getD` fallback. -/
def dLeaf : UseLeaf := { path := [], segment := none, alias' := none }

/-- Source `DefData` in the source. -/
structure DefData where
  source_item_id : Nat
  name : Name
  kind : DefKind
deriving Repr, DecidableEq

/-- Source `MacroData` in the source (`export` is a Lean keyword, stored as
`exported`). -/
structure MacroData where
  ast_id : Nat
  path : RawPath
  name : Option Name
  exported : Bool
deriving Repr, DecidableEq

/-- Source `RawItem` in the source: a tagged id into one of the four arenas
(constructors `Module`, `Import`, `Def`, `Macro` in the source). -/
inductive RawItem where
  | module (id : Nat)
  | imp (id : Nat)
  | defn (id : Nat)
  | mac (id : Nat)
deriving Repr, DecidableEq

/-- Source `ModuleData` in the source. -/
inductive ModuleData where
  | declaration (name : Name) (ast_id : Nat)
  | definition (name : Name) (ast_id : Nat) (items : List RawItem)
deriving Repr, DecidableEq

/-- Default `ModuleData`, used only as the `getD` fallback. -/
def dModule : ModuleData := ModuleData.declaration "" 0

mutual
/-- Source `ast::ModuleItem`, restricted to what the collector reads off each
variant (`add_item`'s match): a module node exposes `name()`, `ast_id`,
`has_semi()` and `item_list()`; a use item `has_atom_attr("prelude_import")`
and its expansion leaves; an extern-crate item `name_ref()` and its alias'
clause (`alias'()` giving an optional rename clause whose `name()` is itself
optional); an impl block its (ignored) contents; each def-kind item its
optional `name()` and its stable-index id `id_of_unchecked(item.syntax())`. -/
inductive ModuleItem where
  | module (name : Option Name) (ast_id : Nat) (has_semi : Bool)
      (item_list : Option (List ItemOrMacro))
  | useItem (is_prelude : Bool) (leaves : List UseLeaf)
  | externCrateItem (name_ref : Option Name) (alias' : Option (Option Name))
  | implBlock (contents : List ItemOrMacro)
  | structDef (name : Option Name) (source_item_id : Nat)
  | enumDef (name : Option Name) (source_item_id : Nat)
  | fnDef (name : Option Name) (source_item_id : Nat)
  | traitDef (name : Option Name) (source_item_id : Nat)
  | typeAliasDef (name : Option Name) (source_item_id : Nat)
  | constDef (name : Option Name) (source_item_id : Nat)
  | staticDef (name : Option Name) (source_item_id : Nat)

/-- Source `ast::ItemOrMacro`: what `items_with_macros()` yields. A macro call
carries `m.path().and_then(Path::from_ast)` (none when the path is missing
or unparsable), `m.name()`, the `macro_export` attribute, and `ast_id(m)`. -/
inductive ItemOrMacro where
  | macroCall (path : Option RawPath) (name : Option Name) (exported : Bool)
      (ast_id : Nat)
  | item (i : ModuleItem)
end

/-- Source `RawItems` in the source: the four arenas plus the top-level item list. -/
structure RawItems where
  modules : List ModuleData
  imports : List ImportData
  defs : List DefData
  macros : List MacroData
  items : List RawItem
deriving Repr

/-- Source `RawItems::default()`. -/
def RawItems.empty : RawItems :=
  { modules := [], imports := [], defs := [], macros := [], items := [] }

/-- Source `ImportSourceMap` in the source: an `ArenaMap<ImportId, AstPtr<..>>`,
embedded as a function from import id to optional segment pointer. -/
structure ImportSourceMap where
  map : Nat → Option PathSeg

/-- Source `ImportSourceMap::default()`. -/
def ImportSourceMap.empty : ImportSourceMap := ⟨fun _ => none⟩

/-- Source `ImportSourceMap::insert`. -/
def ImportSourceMap.insert (m : ImportSourceMap) (importId : Nat)
    (segment : PathSeg) : ImportSourceMap :=
  ⟨fun i => if i = importId then some segment else m.map i⟩

/-- Source `RawItemsCollector` state: the raw items and source map under
construction (`source_file_items` is absorbed into the tree nodes, which
carry their stable-index ids). -/
structure RawItemsCollector where
  raw_items : RawItems
  source_map : ImportSourceMap

/-- Push into a `Definition` module's item list; the `Declaration` arm is
`unreachable!()` in the source (never hit from the public entry point) and
is embedded as the identity. -/
def pushIntoModule (md : ModuleData) (it : RawItem) : ModuleData :=
  match md with
  | .definition n a items => .definition n a (items ++ [it])
  | .declaration n a => .declaration n a

/-- Source `RawItemsCollector::push_item`: append to the current parent module's
item list, or to the file's top-level list when there is no parent. -/
def pushItem (cur : Option Nat) (st : RawItemsCollector) (it : RawItem) :
    RawItemsCollector :=
  match cur with
  | some m =>
      let md := pushIntoModule (st.raw_items.modules.getD m dModule) it
      { st with raw_items :=
        { st.raw_items with modules := st.raw_items.modules.set m md } }
  | none =>
      { st with raw_items :=
        { st.raw_items with items := st.raw_items.items ++ [it] } }

/-- The closure passed by `add_use_item` to `Path::expand_use_item`, acting
on one expanded leaf: allocate one `ImportData` row (`is_glob` iff the leaf
has no segment), insert a source-map entry for segment-bearing leaves, and
push the row. -/
def useLeafStep (cur : Option Nat) (is_prelude : Bool)
    (st : RawItemsCollector) (leaf : UseLeaf) : RawItemsCollector :=
  let importId := st.raw_items.imports.length
  let st1 : RawItemsCollector :=
    { st with raw_items :=
      { st.raw_items with imports := st.raw_items.imports ++
        [{ path := leaf.path, alias' := leaf.alias',
           is_glob := leaf.segment.isNone, is_prelude := is_prelude,
           is_extern_crate := false }] } }
  let st2 : RawItemsCollector :=
    match leaf.segment with
    | some seg => { st1 with source_map := st1.source_map.insert importId seg }
    | none => st1
  pushItem cur st2 (.imp importId)

/-- Source `RawItemsCollector::add_use_item`: `Path::expand_use_item` invokes the
closure once per expanded leaf, in expansion order. -/
def addUseItem (cur : Option Nat) (st : RawItemsCollector)
    (is_prelude : Bool) (leaves : List UseLeaf) : RawItemsCollector :=
  leaves.foldl (useLeafStep cur is_prelude) st

/-- Source `RawItemsCollector::add_extern_crate_item`: if the item names a crate,
allocate one non-glob, non-prelude, extern-crate `ImportData` row and push
it; no source-map entry is made. If unnamed, do nothing. -/
def addExternCrateItem (cur : Option Nat) (st : RawItemsCollector)
    (name_ref : Option Name) (alias' : Option (Option Name)) :
    RawItemsCollector :=
  match name_ref with
  | some n =>
      let path := RawPath.from_name_ref n
      let al := alias'.bind id
      let importId := st.raw_items.imports.length
      let st1 : RawItemsCollector :=
        { st with raw_items :=
          { st.raw_items with imports := st.raw_items.imports ++
            [{ path := path, alias' := al, is_glob := false,
               is_prelude := false, is_extern_crate := true }] } }
      pushItem cur st1 (.imp importId)
  | none => st

/-- Source `RawItemsCollector::add_macro`: skip when the callee path is missing or
unparsable; otherwise allocate a `MacroData` row and push it. -/
def addMacroCall (cur : Option Nat) (st : RawItemsCollector)
    (path : Option RawPath) (name : Option Name) (exported : Bool)
    (ast_id : Nat) : RawItemsCollector :=
  match path with
  | none => st
  | some p =>
      let macId := st.raw_items.macros.length
      let st1 : RawItemsCollector :=
        { st with raw_items :=
          { st.raw_items with macros := st.raw_items.macros ++
            [{ ast_id := ast_id, path := p, name := name,
               exported := exported }] } }
      pushItem cur st1 (.mac macId)

/-- The shared tail of `add_item` for the seven def kinds: named items get a
`DefData` row, unnamed ones contribute nothing. -/
def addDef (cur : Option Nat) (st : RawItemsCollector) (kind : DefKind)
    (name : Option Name) (source_item_id : Nat) : RawItemsCollector :=
  match name with
  | some n =>
      let defId := st.raw_items.defs.length
      let st1 : RawItemsCollector :=
        { st with raw_items :=
          { st.raw_items with defs := st.raw_items.defs ++
            [{ source_item_id := source_item_id, name := n, kind := kind }] } }
      pushItem cur st1 (.defn defId)
  | none => st

mutual
/-- Source `RawItemsCollector::process_module`: visit each item-or-macro of the
body in source order. -/
def processModule (cur : Option Nat) (st : RawItemsCollector) :
    List ItemOrMacro → RawItemsCollector
  | [] => st
  | x :: xs => processModule cur (addItemOrMacro cur st x) xs

/-- Dispatch of one `ItemOrMacro` (the match inside `process_module`). -/
def addItemOrMacro (cur : Option Nat) (st : RawItemsCollector) :
    ItemOrMacro → RawItemsCollector
  | .macroCall p n e a => addMacroCall cur st p n e a
  | .item i => addItem cur st i

/-- Source `RawItemsCollector::add_item`: dispatch on the item kind; impl blocks
contribute nothing. -/
def addItem (cur : Option Nat) (st : RawItemsCollector) :
    ModuleItem → RawItemsCollector
  | .module name a semi il => addModule cur st name a semi il
  | .useItem pre leaves => addUseItem cur st pre leaves
  | .externCrateItem nr al => addExternCrateItem cur st nr al
  | .implBlock _ => st
  | .structDef n s => addDef cur st .structKind n s
  | .enumDef n s => addDef cur st .enum n s
  | .fnDef n s => addDef cur st .function n s
  | .traitDef n s => addDef cur st .traitKind n s
  | .typeAliasDef n s => addDef cur st .typeAlias n s
  | .constDef n s => addDef cur st .const n s
  | .staticDef n s => addDef cur st .staticKind n s

/-- Source `RawItemsCollector::add_module`: unnamed modules contribute nothing;
`mod m;` allocates a `Declaration`; `mod m { .. }` allocates a `Definition`
(before recursing), recurses into the body with it as parent, then pushes;
a named module with neither terminator contributes nothing
(`tested_by!(name_res_works_for_broken_modules)`). -/
def addModule (cur : Option Nat) (st : RawItemsCollector)
    (name : Option Name) (ast_id : Nat) (has_semi : Bool)
    (il : Option (List ItemOrMacro)) : RawItemsCollector :=
    match name with
    | none => st
    | some n =>
      if has_semi then
        let modId := st.raw_items.modules.length
        let st1 : RawItemsCollector :=
          { st with raw_items :=
            { st.raw_items with modules := st.raw_items.modules ++
              [ModuleData.declaration n ast_id] } }
        pushItem cur st1 (.module modId)
      else
        match il with
        | some items =>
            let modId := st.raw_items.modules.length
            let st1 : RawItemsCollector :=
              { st with raw_items :=
                { st.raw_items with modules := st.raw_items.modules ++
                  [ModuleData.definition n ast_id []] } }
            let st2 := processModule (some modId) st1 items
            pushItem cur st2 (.module modId)
        | none => st
end

/-- The database surface the query layer consumes: `hir_parse` yields the
parsed source file for a file id (`file_items` is absorbed into the nodes). -/
structure Db where
  hir_parse : Nat → List ItemOrMacro

/-- Source `RawItems::raw_items_with_source_map_query`: run the collector once over
the file's parse, starting from default state with no parent module. -/
def raw_items_with_source_map_query (db : Db) (file_id : Nat) :
    RawItems × ImportSourceMap :=
  let collector : RawItemsCollector :=
    { raw_items := RawItems.empty, source_map := ImportSourceMap.empty }
  let source_file := db.hir_parse file_id
  let c := processModule none collector source_file
  (c.raw_items, c.source_map)

/-- Source `RawItems::raw_items_query`: the first component of the pair query. -/
def raw_items_query (db : Db) (file_id : Nat) : RawItems :=
  (raw_items_with_source_map_query db file_id).1

/-- The item list a given parent refers to: the top-level list for `none`,
a `Definition` module's own list otherwise (`[]` for the unreachable
`Declaration` case). -/
def currentItems (cur : Option Nat) (st : RawItemsCollector) : List RawItem :=
  match cur with
  | none => st.raw_items.items
  | some m =>
      match st.raw_items.modules.getD m dModule with
      | .definition _ _ items => items
      | .declaration _ _ => []

/-- A parent reference the collector can actually produce: absent, or an
in-range `Definition` module. -/
def validParent (st : RawItemsCollector) : Option Nat → Prop
  | none => True
  | some m =>
      m < st.raw_items.modules.length ∧
      ∃ n a items, st.raw_items.modules.getD m dModule =
        ModuleData.definition n a items

/-- The item list owned by module `m` (empty for a `Declaration`, which owns
no items, and for an out-of-range id). -/
def moduleItems (st : RawItemsCollector) (m : Nat) : List RawItem :=
  match st.raw_items.modules.getD m dModule with
  | .definition _ _ items => items
  | .declaration _ _ => []

/-- The source-map/import-row invariant relating one collector state's
arena of imports and its source map: ids not yet allocated have no entry; a use-item
row (neither glob nor extern-crate) has exactly one entry; glob rows and
extern-crate rows have none. -/
def importMapInv (st : RawItemsCollector) : Prop :=
  (∀ i, st.raw_items.imports.length ≤ i → st.source_map.map i = none) ∧
  (∀ i, i < st.raw_items.imports.length →
    (((st.raw_items.imports.getD i dImport).is_glob = false ∧
      (st.raw_items.imports.getD i dImport).is_extern_crate = false) →
        (st.source_map.map i).isSome = true) ∧
    (((st.raw_items.imports.getD i dImport).is_glob = true ∨
      (st.raw_items.imports.getD i dImport).is_extern_crate = true) →
        st.source_map.map i = none))

/-- State `st` grows into `st'` by appends only: the top-level item list is a
prefix of the new one, modules are only added, and every already-existing
module's item list is a prefix of its new item list. This is the sense in
which collection preserves relative order at every nesting level. -/
def growsTo (st st' : RawItemsCollector) : Prop :=
  st.raw_items.items <+: st'.raw_items.items ∧
  st.raw_items.modules.length ≤ st'.raw_items.modules.length ∧
  ∀ m, m < st.raw_items.modules.length → moduleItems st m <+: moduleItems st' m

/-- The `ImportData` row `add_use_item` allocates for one expanded leaf. -/
def mkUseImport (pre : Bool) (l : UseLeaf) : ImportData :=
  { path := l.path, alias' := l.alias', is_glob := l.segment.isNone,
    is_prelude := pre, is_extern_crate := false }

/-- The collector's starting state (`RawItems::default()` plus
`ImportSourceMap::default()`), as built by the query. -/
def emptyCollector : RawItemsCollector :=
  { raw_items := RawItems.empty, source_map := ImportSourceMap.empty }

/-- A one-item source file holding a named `extern crate foo;`. -/
def externCrateTree : List ItemOrMacro :=
  [.item (.externCrateItem (some "foo") none)]

/-- A database whose every file parses to `externCrateTree`. -/
def externCrateDb : Db := ⟨fun _ => externCrateTree⟩

/-- A one-item source file holding a use item with a single explicit leaf
whose segment pointer is 7. -/
def sampleUseTree : List ItemOrMacro :=
  [.item (.useItem false [{ path := [ "a" ], segment := some 7,
                            alias' := none }])]

/-- A database whose every file parses to `sampleUseTree`. -/
def sampleUseDb : Db := ⟨fun _ => sampleUseTree⟩

/-- A source file with two nested inline modules: `mod na { mod nb { } }`,
with stable ids `ia`/`ib` on the two module nodes. -/
def nestedTree (na nb : Name) (ia ib : Nat) : List ItemOrMacro :=
  [.item (.module (some na) ia false
    (some [.item (.module (some nb) ib false (some []))]))]

/-! ## Helper lemmas -/

theorem getD_set_ne {α : Type} (l : List α) (i j : Nat) (a d : α)
    (h : i ≠ j) : (l.set i a).getD j d = l.getD j d := by
  simp [List.getD_eq_getElem?_getD, List.getElem?_set_ne h]

theorem getD_set_self {α : Type} (l : List α) (i : Nat) (a d : α)
    (h : i < l.length) : (l.set i a).getD i d = a := by
  simp [List.getD_eq_getElem?_getD, List.getElem?_set_self h]

theorem getD_concat_length {α : Type} (l : List α) (a d : α) :
    (l ++ [a]).getD l.length d = a := by
  simp [List.getD_eq_getElem?_getD, List.getElem?_concat_length]

theorem pushItem_imports (cur : Option Nat) (st : RawItemsCollector)
    (it : RawItem) :
    (pushItem cur st it).raw_items.imports = st.raw_items.imports := by
  cases cur <;> rfl

theorem pushItem_defs (cur : Option Nat) (st : RawItemsCollector)
    (it : RawItem) :
    (pushItem cur st it).raw_items.defs = st.raw_items.defs := by
  cases cur <;> rfl

theorem pushItem_macros (cur : Option Nat) (st : RawItemsCollector)
    (it : RawItem) :
    (pushItem cur st it).raw_items.macros = st.raw_items.macros := by
  cases cur <;> rfl

theorem pushItem_source_map (cur : Option Nat) (st : RawItemsCollector)
    (it : RawItem) :
    (pushItem cur st it).source_map = st.source_map := by
  cases cur <;> rfl

theorem pushItem_modules_length (cur : Option Nat) (st : RawItemsCollector)
    (it : RawItem) :
    (pushItem cur st it).raw_items.modules.length =
      st.raw_items.modules.length := by
  cases cur with
  | none => rfl
  | some m => simp [pushItem, List.length_set]


theorem moduleItems_congr (st st' : RawItemsCollector) (m : Nat)
    (h : st'.raw_items.modules = st.raw_items.modules) :
    moduleItems st' m = moduleItems st m := by
  simp [moduleItems, h]

theorem growsTo_refl (st : RawItemsCollector) : growsTo st st :=
  ⟨List.prefix_rfl, le_refl _, fun _ _ => List.prefix_rfl⟩

theorem growsTo_trans {a b c : RawItemsCollector}
    (h : growsTo a b) (g : growsTo b c) : growsTo a c := by
  obtain ⟨h1, h2, h3⟩ := h
  obtain ⟨g1, g2, g3⟩ := g
  exact ⟨h1.trans g1, le_trans h2 g2,
    fun m hm => (h3 m hm).trans (g3 m (lt_of_lt_of_le hm h2))⟩

theorem growsTo_of_untouched (st st' : RawItemsCollector)
    (hi : st'.raw_items.items = st.raw_items.items)
    (hm : st'.raw_items.modules = st.raw_items.modules) :
    growsTo st st' := by
  refine ⟨hi ▸ List.prefix_rfl, le_of_eq (by rw [hm]), fun m _ => ?_⟩
  rw [moduleItems_congr st st' m hm]

theorem growsTo_of_alloc_module (st st' : RawItemsCollector)
    (md : ModuleData)
    (hi : st'.raw_items.items = st.raw_items.items)
    (hm : st'.raw_items.modules = st.raw_items.modules ++ [md]) :
    growsTo st st' := by
  refine ⟨hi ▸ List.prefix_rfl, by rw [hm]; simp, fun m hlt => ?_⟩
  have hgd : st'.raw_items.modules.getD m dModule =
      st.raw_items.modules.getD m dModule := by
    rw [hm]
    exact List.getD_append _ _ _ _ hlt
  unfold moduleItems
  rw [hgd]

theorem growsTo_pushItem (cur : Option Nat) (st : RawItemsCollector)
    (it : RawItem) : growsTo st (pushItem cur st it) := by
  cases cur with
  | none =>
      exact ⟨List.prefix_append _ _, le_refl _, fun m _ => by
        rw [moduleItems_congr st (pushItem none st it) m rfl]⟩
  | some m =>
      refine ⟨List.prefix_rfl, le_of_eq (by simp [pushItem, List.length_set]),
        fun m' hm' => ?_⟩
      have hmods : (pushItem (some m) st it).raw_items.modules =
          st.raw_items.modules.set m
            (pushIntoModule (st.raw_items.modules.getD m dModule) it) := rfl
      by_cases hmm : m = m'
      · subst hmm
        unfold moduleItems
        rw [hmods, getD_set_self _ _ _ _ hm']
        cases h : st.raw_items.modules.getD m dModule with
        | declaration n a => simp [pushIntoModule]
        | definition n a items =>
            simp only [pushIntoModule]
            exact List.prefix_append _ _
      · unfold moduleItems
        rw [hmods, getD_set_ne _ _ _ _ _ hmm]

theorem growsTo_useLeafStep (cur : Option Nat) (pre : Bool)
    (st : RawItemsCollector) (l : UseLeaf) :
    growsTo st (useLeafStep cur pre st l) := by
  refine growsTo_trans ?_ (growsTo_pushItem cur _ _)
  cases hseg : l.segment with
  | none => exact growsTo_of_untouched _ _ rfl rfl
  | some seg =>
      refine growsTo_of_untouched _ _ ?_ ?_ <;> simp [hseg]

theorem growsTo_addUseItem (cur : Option Nat) (st : RawItemsCollector)
    (pre : Bool) (leaves : List UseLeaf) :
    growsTo st (addUseItem cur st pre leaves) := by
  induction leaves generalizing st with
  | nil => exact growsTo_refl st
  | cons l ls ih =>
      have : addUseItem cur st pre (l :: ls) =
          addUseItem cur (useLeafStep cur pre st l) pre ls := rfl
      rw [this]
      exact growsTo_trans (growsTo_useLeafStep cur pre st l) (ih _)

theorem growsTo_addExternCrateItem (cur : Option Nat)
    (st : RawItemsCollector) (nr : Option Name) (al : Option (Option Name)) :
    growsTo st (addExternCrateItem cur st nr al) := by
  cases nr with
  | none => exact growsTo_refl st
  | some n =>
      refine growsTo_trans ?_ (growsTo_pushItem cur _ _)
      exact growsTo_of_untouched _ _ rfl rfl

theorem growsTo_addMacroCall (cur : Option Nat) (st : RawItemsCollector)
    (p : Option RawPath) (n : Option Name) (e : Bool) (a : Nat) :
    growsTo st (addMacroCall cur st p n e a) := by
  cases p with
  | none => exact growsTo_refl st
  | some pp =>
      refine growsTo_trans ?_ (growsTo_pushItem cur _ _)
      exact growsTo_of_untouched _ _ rfl rfl

theorem growsTo_addDef (cur : Option Nat) (st : RawItemsCollector)
    (k : DefKind) (n : Option Name) (s : Nat) :
    growsTo st (addDef cur st k n s) := by
  cases n with
  | none => exact growsTo_refl st
  | some nn =>
      refine growsTo_trans ?_ (growsTo_pushItem cur _ _)
      exact growsTo_of_untouched _ _ rfl rfl


theorem growsTo_collect :
    ∀ (cur : Option Nat) (st : RawItemsCollector) (body : List ItemOrMacro),
      growsTo st (processModule cur st body) := by
  refine processModule.induct
    (fun cur st body => growsTo st (processModule cur st body))
    (fun cur st x => growsTo st (addItemOrMacro cur st x))
    (fun cur st i => growsTo st (addItem cur st i))
    (fun cur st name a semi il => growsTo st (addModule cur st name a semi il))
    ?_ ?_ ?_ ?_ ?_ ?_ ?_ ?_ ?_ ?_ ?_ ?_ ?_ ?_ ?_ ?_ ?_ ?_ ?_
  · intro cur st name a semi il ih
    exact ih
  · intro cur st pre leaves
    exact growsTo_addUseItem cur st pre leaves
  · intro cur st nr al
    exact growsTo_addExternCrateItem cur st nr al
  · intro cur st contents
    exact growsTo_refl st
  · intro cur st n s
    exact growsTo_addDef cur st _ n s
  · intro cur st n s
    exact growsTo_addDef cur st _ n s
  · intro cur st n s
    exact growsTo_addDef cur st _ n s
  · intro cur st n s
    exact growsTo_addDef cur st _ n s
  · intro cur st n s
    exact growsTo_addDef cur st _ n s
  · intro cur st n s
    exact growsTo_addDef cur st _ n s
  · intro cur st n s
    exact growsTo_addDef cur st _ n s
  · intro cur st p n e a
    exact growsTo_addMacroCall cur st p n e a
  · intro cur st i ih
    exact ih
  · intro t cur st ast_id has_semi
    rw [addModule.eq_def]
    exact growsTo_refl st
  · intro t cur st ast_id n
    rw [addModule.eq_def]
    simp only [if_true]
    refine growsTo_trans ?_ (growsTo_pushItem cur _ _)
    exact growsTo_of_alloc_module _ _ (ModuleData.declaration n ast_id) rfl rfl
  · intro cur st ast_id has_semi n hsemi items
    intro modId st1 ih
    have hsemi' : has_semi = false := by
      cases has_semi
      · rfl
      · exact absurd rfl hsemi
    subst hsemi'
    rw [addModule.eq_def]
    simp only [Bool.false_eq_true, if_false]
    refine growsTo_trans ?_ (growsTo_pushItem cur _ _)
    refine growsTo_trans ?_ ih
    exact growsTo_of_alloc_module _ _ (ModuleData.definition n ast_id []) rfl rfl
  · intro cur st ast_id has_semi n hsemi
    have hsemi' : has_semi = false := by
      cases has_semi
      · rfl
      · exact absurd rfl hsemi
    subst hsemi'
    rw [addModule.eq_def]
    simp only [Bool.false_eq_true, if_false]
    exact growsTo_refl st
  · intro cur st
    exact growsTo_refl st
  · intro cur st x xs ih1 ih2
    show growsTo st (processModule cur st (x :: xs))
    simp only [processModule]
    exact growsTo_trans ih1 ih2

theorem processModule_append (cur : Option Nat) (st : RawItemsCollector)
    (b1 b2 : List ItemOrMacro) :
    processModule cur st (b1 ++ b2) =
      processModule cur (processModule cur st b1) b2 := by
  induction b1 generalizing st with
  | nil => rfl
  | cons x xs ih =>
      show processModule cur (addItemOrMacro cur st x) (xs ++ b2) =
        processModule cur
          (processModule cur (addItemOrMacro cur st x) xs) b2
      exact ih _

theorem inv_congr (st st' : RawItemsCollector)
    (hi : st'.raw_items.imports = st.raw_items.imports)
    (hm : st'.source_map = st.source_map)
    (h : importMapInv st) : importMapInv st' := by
  unfold importMapInv at h ⊢
  rw [hi, hm]
  exact h

theorem inv_pushItem (cur : Option Nat) (st : RawItemsCollector)
    (it : RawItem) (h : importMapInv st) :
    importMapInv (pushItem cur st it) :=
  inv_congr st _ (pushItem_imports cur st it) (pushItem_source_map cur st it) h

theorem inv_useLeafStep (cur : Option Nat) (pre : Bool)
    (st : RawItemsCollector) (l : UseLeaf) (h : importMapInv st) :
    importMapInv (useLeafStep cur pre st l) := by
  obtain ⟨h1, h2⟩ := h
  refine inv_pushItem cur _ _ ?_
  cases hseg : l.segment with
  | none =>
      constructor
      · intro i hi
        simp only [useLeafStep, hseg]
        have : st.raw_items.imports.length ≤ i := by
          simp [hseg] at hi
          omega
        exact h1 i this
      · intro i hi
        simp only [useLeafStep, hseg] at hi ⊢
        simp only [List.length_append, List.length_singleton] at hi
        by_cases hlt : i < st.raw_items.imports.length
        · have hget : (st.raw_items.imports ++
              [({ path := l.path, alias' := l.alias',
                  is_glob := l.segment.isNone, is_prelude := pre,
                  is_extern_crate := false } : ImportData)]).getD i dImport =
              st.raw_items.imports.getD i dImport :=
            List.getD_append _ _ _ _ hlt
          simp only [hseg] at hget
          rw [hget]
          exact h2 i hlt
        · have hieq : i = st.raw_items.imports.length := by omega
          subst hieq
          have hget : (st.raw_items.imports ++
              [({ path := l.path, alias' := l.alias',
                  is_glob := (none : Option PathSeg).isNone, is_prelude := pre,
                  is_extern_crate := false } : ImportData)]).getD
                st.raw_items.imports.length dImport =
              { path := l.path, alias' := l.alias',
                is_glob := (none : Option PathSeg).isNone, is_prelude := pre,
                is_extern_crate := false } :=
            getD_concat_length _ _ _
          rw [hget]
          constructor
          · intro hfalse
            simp at hfalse
          · intro _
            exact h1 _ (le_refl _)
  | some seg =>
      constructor
      · intro i hi
        simp only [useLeafStep, hseg]
        simp only [useLeafStep, hseg, List.length_append,
          List.length_singleton] at hi
        have hne : i ≠ st.raw_items.imports.length := by omega
        simp only [ImportSourceMap.insert, hne, if_false]
        exact h1 i (by omega)
      · intro i hi
        simp only [useLeafStep, hseg] at hi ⊢
        simp only [List.length_append, List.length_singleton] at hi
        by_cases hlt : i < st.raw_items.imports.length
        · have hget : (st.raw_items.imports ++
              [({ path := l.path, alias' := l.alias',
                  is_glob := l.segment.isNone, is_prelude := pre,
                  is_extern_crate := false } : ImportData)]).getD i dImport =
              st.raw_items.imports.getD i dImport :=
            List.getD_append _ _ _ _ hlt
          simp only [hseg] at hget
          rw [hget]
          have hne : i ≠ st.raw_items.imports.length := by omega
          simp only [ImportSourceMap.insert, hne, if_false]
          exact h2 i hlt
        · have hieq : i = st.raw_items.imports.length := by omega
          subst hieq
          have hget : (st.raw_items.imports ++
              [({ path := l.path, alias' := l.alias',
                  is_glob := (some seg : Option PathSeg).isNone,
                  is_prelude := pre,
                  is_extern_crate := false } : ImportData)]).getD
                st.raw_items.imports.length dImport =
              { path := l.path, alias' := l.alias',
                is_glob := (some seg : Option PathSeg).isNone,
                is_prelude := pre, is_extern_crate := false } :=
            getD_concat_length _ _ _
          rw [hget]
          constructor
          · intro _
            simp [ImportSourceMap.insert]
          · intro hor
            simp at hor

theorem inv_addUseItem (cur : Option Nat) (st : RawItemsCollector)
    (pre : Bool) (leaves : List UseLeaf) (h : importMapInv st) :
    importMapInv (addUseItem cur st pre leaves) := by
  induction leaves generalizing st with
  | nil => exact h
  | cons l ls ih =>
      have hstep : addUseItem cur st pre (l :: ls) =
          addUseItem cur (useLeafStep cur pre st l) pre ls := rfl
      rw [hstep]
      exact ih _ (inv_useLeafStep cur pre st l h)

theorem inv_addExternCrateItem (cur : Option Nat) (st : RawItemsCollector)
    (nr : Option Name) (al : Option (Option Name)) (h : importMapInv st) :
    importMapInv (addExternCrateItem cur st nr al) := by
  obtain ⟨h1, h2⟩ := h
  cases nr with
  | none => exact ⟨h1, h2⟩
  | some n =>
      refine inv_pushItem cur _ _ ⟨?_, ?_⟩
      · intro i hi
        simp only [List.length_append, List.length_singleton] at hi
        exact h1 i (by omega)
      · intro i hi
        simp only [List.length_append, List.length_singleton] at hi
        by_cases hlt : i < st.raw_items.imports.length
        · have hget : (st.raw_items.imports ++
              [({ path := RawPath.from_name_ref n, alias' := al.bind id,
                  is_glob := false, is_prelude := false,
                  is_extern_crate := true } : ImportData)]).getD i dImport =
              st.raw_items.imports.getD i dImport :=
            List.getD_append _ _ _ _ hlt
          rw [hget]
          exact h2 i hlt
        · have hieq : i = st.raw_items.imports.length := by omega
          subst hieq
          have hget : (st.raw_items.imports ++
              [({ path := RawPath.from_name_ref n, alias' := al.bind id,
                  is_glob := false, is_prelude := false,
                  is_extern_crate := true } : ImportData)]).getD
                st.raw_items.imports.length dImport =
              { path := RawPath.from_name_ref n, alias' := al.bind id,
                is_glob := false, is_prelude := false,
                is_extern_crate := true } :=
            getD_concat_length _ _ _
          rw [hget]
          constructor
          · intro hfalse
            simp at hfalse
          · intro _
            exact h1 _ (le_refl _)

theorem inv_addMacroCall (cur : Option Nat) (st : RawItemsCollector)
    (p : Option RawPath) (n : Option Name) (e : Bool) (a : Nat)
    (h : importMapInv st) : importMapInv (addMacroCall cur st p n e a) := by
  cases p with
  | none => exact h
  | some pp => exact inv_pushItem cur _ _ (inv_congr st _ rfl rfl h)

theorem inv_addDef (cur : Option Nat) (st : RawItemsCollector)
    (k : DefKind) (n : Option Name) (s : Nat) (h : importMapInv st) :
    importMapInv (addDef cur st k n s) := by
  cases n with
  | none => exact h
  | some nn => exact inv_pushItem cur _ _ (inv_congr st _ rfl rfl h)

theorem inv_collect :
    ∀ (cur : Option Nat) (st : RawItemsCollector) (body : List ItemOrMacro),
      importMapInv st → importMapInv (processModule cur st body) := by
  refine processModule.induct
    (fun cur st body => importMapInv st → importMapInv (processModule cur st body))
    (fun cur st x => importMapInv st → importMapInv (addItemOrMacro cur st x))
    (fun cur st i => importMapInv st → importMapInv (addItem cur st i))
    (fun cur st name a semi il =>
      importMapInv st → importMapInv (addModule cur st name a semi il))
    ?_ ?_ ?_ ?_ ?_ ?_ ?_ ?_ ?_ ?_ ?_ ?_ ?_ ?_ ?_ ?_ ?_ ?_ ?_
  · intro cur st name a semi il ih
    exact ih
  · intro cur st pre leaves h
    exact inv_addUseItem cur st pre leaves h
  · intro cur st nr al h
    exact inv_addExternCrateItem cur st nr al h
  · intro cur st contents h
    exact h
  · intro cur st n s h
    exact inv_addDef cur st _ n s h
  · intro cur st n s h
    exact inv_addDef cur st _ n s h
  · intro cur st n s h
    exact inv_addDef cur st _ n s h
  · intro cur st n s h
    exact inv_addDef cur st _ n s h
  · intro cur st n s h
    exact inv_addDef cur st _ n s h
  · intro cur st n s h
    exact inv_addDef cur st _ n s h
  · intro cur st n s h
    exact inv_addDef cur st _ n s h
  · intro cur st p n e a h
    exact inv_addMacroCall cur st p n e a h
  · intro cur st i ih
    exact ih
  · intro t cur st ast_id has_semi h
    rw [addModule.eq_def]
    exact h
  · intro t cur st ast_id n h
    rw [addModule.eq_def]
    simp only [if_true]
    exact inv_pushItem cur _ _ (inv_congr st _ rfl rfl h)
  · intro cur st ast_id has_semi n hsemi items
    intro modId st1 ih h
    have hsemi' : has_semi = false := by
      cases has_semi
      · rfl
      · exact absurd rfl hsemi
    subst hsemi'
    rw [addModule.eq_def]
    simp only [Bool.false_eq_true, if_false]
    exact inv_pushItem cur _ _ (ih (inv_congr st st1 rfl rfl h))
  · intro cur st ast_id has_semi n hsemi h
    have hsemi' : has_semi = false := by
      cases has_semi
      · rfl
      · exact absurd rfl hsemi
    subst hsemi'
    rw [addModule.eq_def]
    simp only [Bool.false_eq_true, if_false]
    exact h
  · intro cur st h
    exact h
  · intro cur st x xs ih1 ih2 h
    show importMapInv (processModule cur st (x :: xs))
    rw [processModule.eq_def]
    exact ih2 (ih1 h)

theorem inv_initial :
    importMapInv { raw_items := RawItems.empty,
                   source_map := ImportSourceMap.empty } := by
  constructor
  · intro i _
    rfl
  · intro i hi
    simp [RawItems.empty] at hi

theorem inv_query (db : Db) (file_id : Nat) :
    ∀ i, i < (raw_items_with_source_map_query db file_id).1.imports.length →
      ((((raw_items_with_source_map_query db file_id).1.imports.getD i
          dImport).is_glob = false ∧
        ((raw_items_with_source_map_query db file_id).1.imports.getD i
          dImport).is_extern_crate = false) →
          (((raw_items_with_source_map_query db file_id).2.map i).isSome = true)) ∧
      ((((raw_items_with_source_map_query db file_id).1.imports.getD i
          dImport).is_glob = true ∨
        ((raw_items_with_source_map_query db file_id).1.imports.getD i
          dImport).is_extern_crate = true) →
          (raw_items_with_source_map_query db file_id).2.map i = none) := by
  have h := inv_collect none
    { raw_items := RawItems.empty, source_map := ImportSourceMap.empty }
    (db.hir_parse file_id) inv_initial
  exact h.2

theorem currentItems_congr (st st' : RawItemsCollector) (cur : Option Nat)
    (hi : st'.raw_items.items = st.raw_items.items)
    (hm : st'.raw_items.modules = st.raw_items.modules) :
    currentItems cur st' = currentItems cur st := by
  cases cur with
  | none => simp [currentItems, hi]
  | some m => simp [currentItems, hm]

theorem validParent_congr (st st' : RawItemsCollector) (cur : Option Nat)
    (hm : st'.raw_items.modules = st.raw_items.modules)
    (h : validParent st cur) : validParent st' cur := by
  cases cur with
  | none => trivial
  | some m =>
      obtain ⟨hlen, hdef⟩ := h
      exact ⟨by rw [hm]; exact hlen, by rw [hm]; exact hdef⟩

theorem validParent_pushItem (cur : Option Nat) (st : RawItemsCollector)
    (it : RawItem) (h : validParent st cur) :
    validParent (pushItem cur st it) cur := by
  cases cur with
  | none => trivial
  | some m =>
      obtain ⟨hlen, n, a, items, hdef⟩ := h
      refine ⟨by rw [pushItem_modules_length]; exact hlen, ?_⟩
      have hmods : (pushItem (some m) st it).raw_items.modules =
          st.raw_items.modules.set m
            (pushIntoModule (st.raw_items.modules.getD m dModule) it) := rfl
      rw [hmods, getD_set_self _ _ _ _ hlen, hdef]
      exact ⟨n, a, items ++ [it], rfl⟩

theorem currentItems_pushItem (cur : Option Nat) (st : RawItemsCollector)
    (it : RawItem) (h : validParent st cur) :
    currentItems cur (pushItem cur st it) = currentItems cur st ++ [it] := by
  cases cur with
  | none => rfl
  | some m =>
      obtain ⟨hlen, n, a, items, hdef⟩ := h
      have hmods : (pushItem (some m) st it).raw_items.modules =
          st.raw_items.modules.set m
            (pushIntoModule (st.raw_items.modules.getD m dModule) it) := rfl
      simp only [currentItems]
      rw [hmods, getD_set_self _ _ _ _ hlen, hdef]
      simp [pushIntoModule]

theorem useLeafStep_imports (cur : Option Nat) (pre : Bool)
    (st : RawItemsCollector) (l : UseLeaf) :
    (useLeafStep cur pre st l).raw_items.imports =
      st.raw_items.imports ++ [mkUseImport pre l] := by
  cases hseg : l.segment <;>
    simp [useLeafStep, hseg, pushItem_imports, mkUseImport]

theorem useLeafStep_map_ne (cur : Option Nat) (pre : Bool)
    (st : RawItemsCollector) (l : UseLeaf) (i : Nat)
    (hne : i ≠ st.raw_items.imports.length) :
    (useLeafStep cur pre st l).source_map.map i = st.source_map.map i := by
  cases hseg : l.segment with
  | none => simp [useLeafStep, hseg, pushItem_source_map]
  | some seg =>
      simp [useLeafStep, hseg, pushItem_source_map, ImportSourceMap.insert, hne]

theorem useLeafStep_map_self (cur : Option Nat) (pre : Bool)
    (st : RawItemsCollector) (l : UseLeaf)
    (hfresh : st.source_map.map st.raw_items.imports.length = none) :
    (useLeafStep cur pre st l).source_map.map st.raw_items.imports.length =
      l.segment := by
  cases hseg : l.segment with
  | none => simp [useLeafStep, hseg, pushItem_source_map, hfresh]
  | some seg =>
      simp [useLeafStep, hseg, pushItem_source_map, ImportSourceMap.insert]

theorem validParent_pushItem_frame (cur : Option Nat)
    (st st' : RawItemsCollector) (it : RawItem)
    (hm : st'.raw_items.modules = st.raw_items.modules)
    (h : validParent st cur) : validParent (pushItem cur st' it) cur :=
  validParent_pushItem cur st' it (validParent_congr st st' cur hm h)

theorem currentItems_pushItem_frame (cur : Option Nat)
    (st st' : RawItemsCollector) (it : RawItem)
    (hm : st'.raw_items.modules = st.raw_items.modules)
    (hi : st'.raw_items.items = st.raw_items.items)
    (h : validParent st cur) :
    currentItems cur (pushItem cur st' it) = currentItems cur st ++ [it] := by
  rw [currentItems_pushItem cur st' it (validParent_congr st st' cur hm h)]
  rw [currentItems_congr st st' cur hi hm]

theorem useLeafStep_validParent (cur : Option Nat) (pre : Bool)
    (st : RawItemsCollector) (l : UseLeaf) (h : validParent st cur) :
    validParent (useLeafStep cur pre st l) cur := by
  cases hseg : l.segment with
  | none =>
      simp only [useLeafStep, hseg]
      exact validParent_pushItem_frame cur st _ _ rfl h
  | some seg =>
      simp only [useLeafStep, hseg]
      exact validParent_pushItem_frame cur st _ _ rfl h

theorem useLeafStep_currentItems (cur : Option Nat) (pre : Bool)
    (st : RawItemsCollector) (l : UseLeaf) (h : validParent st cur) :
    currentItems cur (useLeafStep cur pre st l) =
      currentItems cur st ++ [.imp st.raw_items.imports.length] := by
  cases hseg : l.segment with
  | none =>
      simp only [useLeafStep, hseg]
      exact currentItems_pushItem_frame cur st _ _ rfl rfl h
  | some seg =>
      simp only [useLeafStep, hseg]
      exact currentItems_pushItem_frame cur st _ _ rfl rfl h

theorem range_map_imp_succ (n0 k : Nat) :
    (List.range (k + 1)).map (fun j => RawItem.imp (n0 + j)) =
      RawItem.imp n0 ::
        (List.range k).map (fun j => RawItem.imp (n0 + 1 + j)) := by
  rw [List.range_succ_eq_map]
  simp only [List.map_cons, List.map_map, Nat.add_zero]
  refine congrArg _ ?_
  exact List.map_congr_left (fun a _ => congrArg RawItem.imp (by omega))

theorem addUseItem_spec (cur : Option Nat) (pre : Bool) :
    ∀ (leaves : List UseLeaf) (st : RawItemsCollector),
      importMapInv st → validParent st cur →
      (addUseItem cur st pre leaves).raw_items.imports =
        st.raw_items.imports ++ leaves.map (mkUseImport pre) ∧
      (∀ i, i < st.raw_items.imports.length →
        (addUseItem cur st pre leaves).source_map.map i =
          st.source_map.map i) ∧
      (∀ j, j < leaves.length →
        (addUseItem cur st pre leaves).source_map.map
          (st.raw_items.imports.length + j) = (leaves.getD j dLeaf).segment) ∧
      currentItems cur (addUseItem cur st pre leaves) =
        currentItems cur st ++
          (List.range leaves.length).map
            (fun j => RawItem.imp (st.raw_items.imports.length + j)) := by
  intro leaves
  induction leaves with
  | nil =>
      intro st hinv hvp
      refine ⟨by simp [addUseItem], fun i _ => rfl,
        fun j hj => by simp at hj, ?_⟩
      simp [addUseItem]
  | cons l ls ih =>
      intro st hinv hvp
      have hstep : addUseItem cur st pre (l :: ls) =
          addUseItem cur (useLeafStep cur pre st l) pre ls := rfl
      have hinv1 := inv_useLeafStep cur pre st l hinv
      have hvp1 := useLeafStep_validParent cur pre st l hvp
      have hlen1 : (useLeafStep cur pre st l).raw_items.imports.length =
          st.raw_items.imports.length + 1 := by
        rw [useLeafStep_imports]
        simp
      obtain ⟨ih1, ih2, ih3, ih4⟩ := ih (useLeafStep cur pre st l) hinv1 hvp1
      refine ⟨?_, ?_, ?_, ?_⟩
      · rw [hstep, ih1, useLeafStep_imports]
        simp
      · intro i hi
        rw [hstep, ih2 i (by omega)]
        exact useLeafStep_map_ne cur pre st l i (by omega)
      · intro j hj
        cases j with
        | zero =>
            rw [hstep, Nat.add_zero,
              ih2 st.raw_items.imports.length (by omega)]
            have hfresh : st.source_map.map st.raw_items.imports.length =
                none := hinv.1 _ (le_refl _)
            rw [useLeafStep_map_self cur pre st l hfresh]
            rfl
        | succ k =>
            have hk : k < ls.length := by
              simp at hj
              omega
            have harith : st.raw_items.imports.length + (k + 1) =
                (useLeafStep cur pre st l).raw_items.imports.length + k := by
              omega
            rw [hstep, harith, ih3 k hk]
            rfl
      · rw [hstep, ih4, useLeafStep_currentItems cur pre st l hvp,
          List.length_cons, range_map_imp_succ, hlen1]
        simp

theorem validParent_alloc (st st' : RawItemsCollector) (cur : Option Nat)
    (md : ModuleData)
    (hm : st'.raw_items.modules = st.raw_items.modules ++ [md])
    (h : validParent st cur) : validParent st' cur := by
  cases cur with
  | none => trivial
  | some m =>
      obtain ⟨hlen, n, a, items, hdef⟩ := h
      refine ⟨by rw [hm]; simp; omega, ?_⟩
      rw [hm, List.getD_append _ _ _ _ hlen, hdef]
      exact ⟨n, a, items, rfl⟩

theorem currentItems_alloc (st st' : RawItemsCollector) (cur : Option Nat)
    (md : ModuleData)
    (hm : st'.raw_items.modules = st.raw_items.modules ++ [md])
    (hi : st'.raw_items.items = st.raw_items.items)
    (h : validParent st cur) :
    currentItems cur st' = currentItems cur st := by
  cases cur with
  | none => simp [currentItems, hi]
  | some m =>
      obtain ⟨hlen, _, _, _, _⟩ := h
      simp only [currentItems]
      rw [hm, List.getD_append _ _ _ _ hlen]

theorem currentItems_pushItem_alloc (cur : Option Nat)
    (st st' : RawItemsCollector) (it : RawItem) (md : ModuleData)
    (hm : st'.raw_items.modules = st.raw_items.modules ++ [md])
    (hi : st'.raw_items.items = st.raw_items.items)
    (h : validParent st cur) :
    currentItems cur (pushItem cur st' it) = currentItems cur st ++ [it] := by
  rw [currentItems_pushItem cur st' it (validParent_alloc st st' cur md hm h)]
  rw [currentItems_alloc st st' cur md hm hi h]

/-! ## Claim theorems -/

/-- C1 counterexample: the claim "every Import row with `is_glob = false`
has exactly one source-map entry" fails at the concrete input
`extern crate foo;` — the extern-crate branch allocates a non-glob Import
row but never inserts a source-map entry. -/
theorem C1_counterexample :
    ¬ (∀ i, i < (raw_items_with_source_map_query externCrateDb 0).1.imports.length →
        (((raw_items_with_source_map_query externCrateDb 0).1.imports.getD i
            dImport).is_glob = false →
          (((raw_items_with_source_map_query externCrateDb 0).2.map i).isSome
            = true)) ∧
        (((raw_items_with_source_map_query externCrateDb 0).1.imports.getD i
            dImport).is_glob = true →
          (raw_items_with_source_map_query externCrateDb 0).2.map i = none)) := by
  intro h
  have h0 := (h 0 (by decide)).1 rfl
  exact absurd h0 (by decide)

/-- C1 (amended): for every model and source map produced by the collector,
every Import row with `is_glob = false` that is *not* an extern-crate row
has exactly one source-map entry, and every row with `is_glob = true` or
with `is_extern_crate = true` (the extern-crate branch inserts no entry)
has no source-map entry. -/
theorem C1_import_source_map (db : Db) (file_id : Nat) :
    ∀ i, i < (raw_items_with_source_map_query db file_id).1.imports.length →
      ((((raw_items_with_source_map_query db file_id).1.imports.getD i
          dImport).is_glob = false ∧
        ((raw_items_with_source_map_query db file_id).1.imports.getD i
          dImport).is_extern_crate = false) →
          (((raw_items_with_source_map_query db file_id).2.map i).isSome
            = true)) ∧
      ((((raw_items_with_source_map_query db file_id).1.imports.getD i
          dImport).is_glob = true ∨
        ((raw_items_with_source_map_query db file_id).1.imports.getD i
          dImport).is_extern_crate = true) →
          (raw_items_with_source_map_query db file_id).2.map i = none) := by
  exact inv_query db file_id

/-- C1 witness: at the input `use a::x;` (one explicit leaf, segment 7) the
single Import row is non-glob, non-extern-crate and its source-map entry is
present. -/
theorem C1_witness :
    ((raw_items_with_source_map_query sampleUseDb 0).2.map 0).isSome
      = true :=
  (C1_import_source_map sampleUseDb 0 0 (by decide)).1 ⟨rfl, rfl⟩

/-- C2: a use item whose expansion yields one wildcard leaf and two explicit
leaves appends exactly 3 Import rows in expansion order to the current item
list; the wildcard row has `is_glob = true` and no source-map entry; each
explicit-leaf row has `is_glob = false` and exactly one source-map entry
holding that leaf's position. (Stated from any reachable collector state:
one satisfying the source-map invariant, with a well-formed parent.) -/
theorem C2_use_item_expansion (cur : Option Nat) (st : RawItemsCollector)
    (pre : Bool) (l1 l2 l3 : UseLeaf) (s2 s3 : PathSeg)
    (hinv : importMapInv st) (hvp : validParent st cur)
    (h1 : l1.segment = none) (h2 : l2.segment = some s2)
    (h3 : l3.segment = some s3) :
    (addUseItem cur st pre [l1, l2, l3]).raw_items.imports.length =
      st.raw_items.imports.length + 3 ∧
    currentItems cur (addUseItem cur st pre [l1, l2, l3]) =
      currentItems cur st ++
        [.imp st.raw_items.imports.length,
         .imp (st.raw_items.imports.length + 1),
         .imp (st.raw_items.imports.length + 2)] ∧
    ((addUseItem cur st pre [l1, l2, l3]).raw_items.imports.getD
        st.raw_items.imports.length dImport).is_glob = true ∧
    (addUseItem cur st pre [l1, l2, l3]).source_map.map
        st.raw_items.imports.length = none ∧
    ((addUseItem cur st pre [l1, l2, l3]).raw_items.imports.getD
        (st.raw_items.imports.length + 1) dImport).is_glob = false ∧
    (addUseItem cur st pre [l1, l2, l3]).source_map.map
        (st.raw_items.imports.length + 1) = some s2 ∧
    ((addUseItem cur st pre [l1, l2, l3]).raw_items.imports.getD
        (st.raw_items.imports.length + 2) dImport).is_glob = false ∧
    (addUseItem cur st pre [l1, l2, l3]).source_map.map
        (st.raw_items.imports.length + 2) = some s3 := by
  obtain ⟨simports, _, smap, sitems⟩ :=
    addUseItem_spec cur pre [l1, l2, l3] st hinv hvp
  have hrow : ∀ k,
      (addUseItem cur st pre [l1, l2, l3]).raw_items.imports.getD
        (st.raw_items.imports.length + k) dImport =
      ([l1, l2, l3].map (mkUseImport pre)).getD k dImport := by
    intro k
    have hget := List.getD_append_right st.raw_items.imports
      ([l1, l2, l3].map (mkUseImport pre)) dImport
      (st.raw_items.imports.length + k) (Nat.le_add_right _ _)
    rw [simports, hget, Nat.add_sub_cancel_left]
  refine ⟨?_, ?_, ?_, ?_, ?_, ?_, ?_, ?_⟩
  · rw [simports]
    simp
  · rw [sitems]
    rfl
  · have := hrow 0
    rw [Nat.add_zero] at this
    rw [this]
    simp [mkUseImport, h1]
  · have := smap 0 (by simp)
    rw [Nat.add_zero] at this
    rw [this]
    simp [dLeaf, h1]
  · rw [hrow 1]
    simp [mkUseImport, h2]
  · rw [smap 1 (by simp)]
    simp [dLeaf, h2]
  · rw [hrow 2]
    simp [mkUseImport, h3]
  · rw [smap 2 (by simp)]
    simp [dLeaf, h3]

/-- C2 witness: at the empty starting state, top level, with concrete leaves
(wildcard, then segments 1 and 2), the use item appends exactly 3 rows. -/
theorem C2_witness :
    (addUseItem none emptyCollector false
      [{ path := [ "w" ], segment := none, alias' := none },
       { path := [ "x" ], segment := some 1, alias' := none },
       { path := [ "y" ], segment := some 2, alias' := none }]
      ).raw_items.imports.length =
      emptyCollector.raw_items.imports.length + 3 :=
  (C2_use_item_expansion none emptyCollector false _ _ _ 1 2
    inv_initial trivial rfl rfl rfl).1

/-- C3: order preservation. Processing a body splits as processing its
prefix then its suffix, and collection only ever appends: the state reached
after the earlier constructs grows into the final state (its top-level item
list is a prefix of the final one, and every already-existing module's item
list is a prefix of its final item list, at every nesting level). Hence the
RawItem entries contributed by constructs C1..Cn appear in source-relative
order in whichever item list they are appended to. -/
theorem C3_order_preservation (cur : Option Nat) (st : RawItemsCollector)
    (b1 b2 : List ItemOrMacro) :
    processModule cur st (b1 ++ b2) =
      processModule cur (processModule cur st b1) b2 ∧
    growsTo st (processModule cur st b1) ∧
    growsTo (processModule cur st b1) (processModule cur st (b1 ++ b2)) := by
  refine ⟨processModule_append cur st b1 b2, growsTo_collect cur st b1, ?_⟩
  rw [processModule_append cur st b1 b2]
  exact growsTo_collect cur _ b2

/-- C3 witness: a concrete two-construct split at the empty state. -/
theorem C3_witness :
    processModule none emptyCollector (sampleUseTree ++ externCrateTree) =
      processModule none (processModule none emptyCollector sampleUseTree)
        externCrateTree :=
  (C3_order_preservation none emptyCollector sampleUseTree externCrateTree).1

/-- C4: a module with an inline body containing a nested module with an
inline body produces exactly two Module arena entries (the outer allocated
first, id 0; the inner id 1); the inner id appears in the outer's item list
and never in the file's top-level item list. -/
theorem C4_nested_modules (na nb : Name) (ia ib : Nat) :
    (raw_items_with_source_map_query ⟨fun _ => nestedTree na nb ia ib⟩
        0).1.modules =
      [ModuleData.definition na ia [.module 1],
       ModuleData.definition nb ib []] ∧
    (raw_items_with_source_map_query ⟨fun _ => nestedTree na nb ia ib⟩
        0).1.items = [.module 0] ∧
    RawItem.module 1 ∈
      (match (raw_items_with_source_map_query ⟨fun _ => nestedTree na nb ia ib⟩
          0).1.modules.getD 0 dModule with
        | ModuleData.definition _ _ items => items
        | ModuleData.declaration _ _ => []) ∧
    RawItem.module 1 ∉
      (raw_items_with_source_map_query ⟨fun _ => nestedTree na nb ia ib⟩
        0).1.items := by
  refine ⟨rfl, rfl, ?_, ?_⟩
  · show RawItem.module 1 ∈ [RawItem.module 1]
    simp
  · show RawItem.module 1 ∉ [RawItem.module 0]
    simp

/-- C5: a module construct with a declaration terminator and no inline body
(`mod m;`) contributes exactly one `Declaration` entry to the module arena
and the collector does not recurse into it: the import, def and macro
arenas and the source map are untouched, no item list other than the
current one changes, and the only appended reference is `Module(id)` in the
current item list. -/
theorem C5_declaration_module (cur : Option Nat) (st : RawItemsCollector)
    (n : Name) (aid : Nat) (hvp : validParent st cur) :
    (addModule cur st (some n) aid true none).raw_items.modules.length =
      st.raw_items.modules.length + 1 ∧
    (addModule cur st (some n) aid true none).raw_items.modules.getD
      st.raw_items.modules.length dModule =
        ModuleData.declaration n aid ∧
    (addModule cur st (some n) aid true none).raw_items.imports =
      st.raw_items.imports ∧
    (addModule cur st (some n) aid true none).raw_items.defs =
      st.raw_items.defs ∧
    (addModule cur st (some n) aid true none).raw_items.macros =
      st.raw_items.macros ∧
    (addModule cur st (some n) aid true none).source_map = st.source_map ∧
    currentItems cur (addModule cur st (some n) aid true none) =
      currentItems cur st ++ [.module st.raw_items.modules.length] := by
  have hred : addModule cur st (some n) aid true none =
      pushItem cur
        { st with raw_items :=
          { st.raw_items with modules := st.raw_items.modules ++
            [ModuleData.declaration n aid] } }
        (.module st.raw_items.modules.length) := rfl
  rw [hred]
  refine ⟨?_, ?_, pushItem_imports _ _ _, pushItem_defs _ _ _,
    pushItem_macros _ _ _, pushItem_source_map _ _ _, ?_⟩
  · rw [pushItem_modules_length]
    simp
  · cases cur with
    | none => exact getD_concat_length _ _ _
    | some m =>
        obtain ⟨hlen, _, _, _, _⟩ := hvp
        have hmods : (pushItem (some m)
            { st with raw_items :=
              { st.raw_items with modules := st.raw_items.modules ++
                [ModuleData.declaration n aid] } }
            (.module st.raw_items.modules.length)).raw_items.modules =
            (st.raw_items.modules ++ [ModuleData.declaration n aid]).set m
              (pushIntoModule ((st.raw_items.modules ++
                [ModuleData.declaration n aid]).getD m dModule)
                (.module st.raw_items.modules.length)) := rfl
        rw [hmods, getD_set_ne _ _ _ _ _ (by omega)]
        exact getD_concat_length _ _ _
  · rw [currentItems_pushItem_alloc cur st
      { st with raw_items :=
        { st.raw_items with modules := st.raw_items.modules ++
          [ModuleData.declaration n aid] } }
      (.module st.raw_items.modules.length)
      (ModuleData.declaration n aid) rfl rfl hvp]

/-- C5 witness: `mod m;` at the empty state, top level. -/
theorem C5_witness :
    (addModule none emptyCollector (some "m") 5 true
        none).raw_items.modules.length =
      emptyCollector.raw_items.modules.length + 1 :=
  (C5_declaration_module none emptyCollector "m" 5 trivial).1

/-- C6: a type-implementation (impl) construct, regardless of its contents,
contributes zero RawItem entries: processing it returns the state
unchanged, and processing it at the head of a body is the same as
processing the rest of the body. -/
theorem C6_impl_exclusion (cur : Option Nat) (st : RawItemsCollector)
    (contents : List ItemOrMacro) (rest : List ItemOrMacro) :
    addItem cur st (.implBlock contents) = st ∧
    processModule cur st (.item (.implBlock contents) :: rest) =
      processModule cur st rest :=
  ⟨rfl, rfl⟩

/-- C7: the collector is total (each embedded operation is a total
function) and every malformed branch contributes nothing and lets
processing continue: a named module with neither inline body nor
declaration terminator, an unnamed definable construct of any of the seven
kinds, a macro invocation whose callee path is missing or unparsable, and
an unnamed extern-crate item all leave the state unchanged, and processing
a body headed by any of them equals processing the rest of the body. -/
theorem C7_malformed_tolerance (cur : Option Nat) (st : RawItemsCollector) :
    (∀ (n : Name) (aid : Nat) (rest : List ItemOrMacro),
      addModule cur st (some n) aid false none = st ∧
      processModule cur st (.item (.module (some n) aid false none) :: rest) =
        processModule cur st rest) ∧
    (∀ (k : DefKind) (sid : Nat), addDef cur st k none sid = st) ∧
    (∀ (sid : Nat) (rest : List ItemOrMacro),
      processModule cur st (.item (.structDef none sid) :: rest) =
          processModule cur st rest ∧
      processModule cur st (.item (.enumDef none sid) :: rest) =
          processModule cur st rest ∧
      processModule cur st (.item (.fnDef none sid) :: rest) =
          processModule cur st rest ∧
      processModule cur st (.item (.traitDef none sid) :: rest) =
          processModule cur st rest ∧
      processModule cur st (.item (.typeAliasDef none sid) :: rest) =
          processModule cur st rest ∧
      processModule cur st (.item (.constDef none sid) :: rest) =
          processModule cur st rest ∧
      processModule cur st (.item (.staticDef none sid) :: rest) =
          processModule cur st rest) ∧
    (∀ (nm : Option Name) (e : Bool) (aid : Nat) (rest : List ItemOrMacro),
      addMacroCall cur st none nm e aid = st ∧
      processModule cur st (.macroCall none nm e aid :: rest) =
        processModule cur st rest) ∧
    (∀ (al : Option (Option Name)) (rest : List ItemOrMacro),
      addExternCrateItem cur st none al = st ∧
      processModule cur st (.item (.externCrateItem none al) :: rest) =
        processModule cur st rest) :=
  ⟨fun _ _ _ => ⟨rfl, rfl⟩,
   fun _ _ => rfl,
   fun _ _ => ⟨rfl, rfl, rfl, rfl, rfl, rfl, rfl⟩,
   fun _ _ _ _ => ⟨rfl, rfl⟩,
   fun _ _ => ⟨rfl, rfl⟩⟩

/-- C8: the convenience query returns exactly the first component of the
pair query, for every database and file identity. -/
theorem C8_query_refinement (db : Db) (file_id : Nat) :
    raw_items_query db file_id =
      (raw_items_with_source_map_query db file_id).1 :=
  rfl

/-- C9: determinism. The collector's output is a function of the file's
parse alone: any two runs over byte-identical input (equal parses, with the
stable item index embedded in the tree nodes) produce equal models — same
ids mapped to the same data, same item-list order — and equal source maps. -/
theorem C9_determinism (db1 db2 : Db) (f1 f2 : Nat)
    (h : db1.hir_parse f1 = db2.hir_parse f2) :
    raw_items_with_source_map_query db1 f1 =
      raw_items_with_source_map_query db2 f2 ∧
    raw_items_query db1 f1 = raw_items_query db2 f2 := by
  have hp : raw_items_with_source_map_query db1 f1 =
      raw_items_with_source_map_query db2 f2 := by
    unfold raw_items_with_source_map_query
    rw [h]
  exact ⟨hp, congrArg Prod.fst hp⟩

/-- C9 witness: two file identities whose parses are byte-identical under
the constant database give equal outputs. -/
theorem C9_witness :
    raw_items_with_source_map_query sampleUseDb 0 =
      raw_items_with_source_map_query sampleUseDb 1 :=
  (C9_determinism sampleUseDb sampleUseDb 0 1 rfl).1

/-- C10 (implicit): a module construct with no name contributes nothing,
whatever its body: the state is unchanged, so nothing inside an unnamed
module's inline body is ever traversed or recorded, and processing a body
headed by such a module equals processing the rest. -/
theorem C10_unnamed_module (cur : Option Nat) (st : RawItemsCollector)
    (aid : Nat) (semi : Bool) (il : Option (List ItemOrMacro))
    (rest : List ItemOrMacro) :
    addModule cur st none aid semi il = st ∧
    addItem cur st (.module none aid semi il) = st ∧
    processModule cur st (.item (.module none aid semi il) :: rest) =
      processModule cur st rest := by
  have h1 : addModule cur st none aid semi il = st := by
    rw [addModule.eq_def]
  refine ⟨h1, ?_, ?_⟩
  · show addModule cur st none aid semi il = st
    exact h1
  · show processModule cur
      (addItemOrMacro cur st (.item (.module none aid semi il))) rest =
        processModule cur st rest
    have h2 : addItemOrMacro cur st (.item (.module none aid semi il)) =
        st := h1
    rw [h2]
